import Mathlib

/-!
# Ledger reconstruction and valuation engine: a shallow embedding

This file embeds the currency-conversion and balance-replay core of the
personalized-financial-manager application (TypeScript sources
`src/utils/currency.ts`, `src/utils/financeCalculations.ts`) and proves or
refutes the specification claims about it.

Modelling conventions:
* JavaScript numbers are idealised as exact decimals (rationals), except that
  the non-finite values `NaN`, `Infinity` and `-Infinity` — which the source
  can produce via division by a missing (`undefined`) or zero rate — are
  represented explicitly by the `JsNum` type, with JavaScript's arithmetic
  rules for them.
* A `Record<Currency, number>` is a partial map `Currency → Option ℚ`;
  an absent key reads as `undefined`, and `x || 1` is JavaScript's
  falsy-coalescing (both `undefined` and `0` fall back to `1`).
* Transaction dates carry no time of day (the app stores ISO date strings and
  compares them against `endOfMonth`, which is the last instant of the month,
  so a calendar-day comparison is exact).
-/

/-- ISO-like currency code, an open-ended string (`src/types/index.ts`). -/
abbrev Currency := String

/-- `Record<Currency, number>`: a partial map from currency code to rate. -/
abbrev RateTable := Currency → Option ℚ

/-- A JavaScript number idealised as an exact rational, plus the three
non-finite values that missing-rate arithmetic can produce. -/
inductive JsNum where
  | finite : ℚ → JsNum
  | nan : JsNum
  | inf : JsNum
  | neginf : JsNum
deriving DecidableEq, Repr

namespace JsNum

/-- JavaScript addition, extended to the non-finite values. -/
def jadd : JsNum → JsNum → JsNum
  | .nan, _ => .nan
  | _, .nan => .nan
  | .finite a, .finite b => .finite (a + b)
  | .inf, .neginf => .nan
  | .neginf, .inf => .nan
  | .inf, _ => .inf
  | _, .inf => .inf
  | .neginf, _ => .neginf
  | _, .neginf => .neginf

/-- JavaScript negation. -/
def jneg : JsNum → JsNum
  | .nan => .nan
  | .finite a => .finite (-a)
  | .inf => .neginf
  | .neginf => .inf

/-- JavaScript subtraction: `a - b = a + (-b)`. -/
def jsub (a b : JsNum) : JsNum := jadd a (jneg b)

/-- JavaScript multiplication, extended to the non-finite values
(`Infinity * 0` is `NaN`). -/
def jmul : JsNum → JsNum → JsNum
  | .nan, _ => .nan
  | _, .nan => .nan
  | .finite a, .finite b => .finite (a * b)
  | .inf, .finite b => if b = 0 then .nan else if 0 < b then .inf else .neginf
  | .finite a, .inf => if a = 0 then .nan else if 0 < a then .inf else .neginf
  | .neginf, .finite b => if b = 0 then .nan else if 0 < b then .neginf else .inf
  | .finite a, .neginf => if a = 0 then .nan else if 0 < a then .neginf else .inf
  | .inf, .inf => .inf
  | .inf, .neginf => .neginf
  | .neginf, .inf => .neginf
  | .neginf, .neginf => .inf

/-- JavaScript division (positive zero only: `x / 0` is `Infinity` for
`x > 0`, `-Infinity` for `x < 0`, `NaN` for `x = 0`). -/
def jdiv : JsNum → JsNum → JsNum
  | .nan, _ => .nan
  | _, .nan => .nan
  | .finite a, .finite b =>
      if b = 0 then (if a = 0 then .nan else if 0 < a then .inf else .neginf)
      else .finite (a / b)
  | .finite _, .inf => .finite 0
  | .finite _, .neginf => .finite 0
  | .inf, .finite b => if 0 ≤ b then .inf else .neginf
  | .neginf, .finite b => if 0 ≤ b then .neginf else .inf
  | .inf, _ => .nan
  | .neginf, _ => .nan

/-- JavaScript strict `>` comparison: any comparison with `NaN` is false. -/
def jgt : JsNum → JsNum → Bool
  | .nan, _ => false
  | _, .nan => false
  | .finite a, .finite b => b < a
  | .inf, .inf => false
  | .inf, _ => true
  | _, .inf => false
  | .neginf, _ => false
  | _, .neginf => true

end JsNum

open JsNum

/-- Reading a key from a `Record<Currency, number>`: an absent key is
`undefined`, which behaves as `NaN` in arithmetic. -/
def lookupNum (rates : RateTable) (c : Currency) : JsNum :=
  match rates c with
  | some r => .finite r
  | none => .nan

/-- `src/utils/currency.ts`, `convertCurrency`:
`if (from === to) return amount; return (amount / rates[from]) * rates[to];` -/
def convertCurrency (amount : ℚ) (from_ to_ : Currency) (rates : RateTable) : JsNum :=
  if from_ = to_ then .finite amount
  else jmul (jdiv (.finite amount) (lookupNum rates from_)) (lookupNum rates to_)

/-- Calendar date (the app stores ISO date strings with no time of day). -/
structure CalDate where
  year : Int
  month : Nat
  day : Nat
deriving DecidableEq, Repr

/-- Gregorian leap-year rule (as implemented by JavaScript `Date`). -/
def isLeapYear (y : Int) : Bool :=
  (y % 4 == 0 && y % 100 != 0) || y % 400 == 0

/-- Number of days in a month of a given year. -/
def daysInMonth (y : Int) (m : Nat) : Nat :=
  if m = 2 then (if isLeapYear y then 29 else 28)
  else if m = 4 ∨ m = 6 ∨ m = 9 ∨ m = 11 then 30
  else 31

/-- `date-fns` `endOfMonth`: the last day of the date's month (the source
compares at millisecond precision, but transaction dates carry no time of
day, so day precision is exact). -/
def endOfMonth (d : CalDate) : CalDate :=
  ⟨d.year, d.month, daysInMonth d.year d.month⟩

/-- `date-fns` `isAfter` at calendar-day precision. -/
def isAfter (a b : CalDate) : Bool :=
  a.year > b.year ||
    (a.year == b.year && (a.month > b.month || (a.month == b.month && a.day > b.day)))

/-- `Account` (`src/types/index.ts`); the engine reads `id`,
`initialBalance` and `currency` (`balance`, `name`, `type`, `color` are
UI-only and omitted). -/
structure Account where
  id : String
  initialBalance : ℚ
  currency : Currency
deriving DecidableEq, Repr

/-- Transaction type tag: `'Income' | 'Expense' | 'Transfer'`. -/
inductive TxType where
  | Income
  | Expense
  | Transfer
deriving DecidableEq, Repr

/-- `Transaction` (`src/types/index.ts`); `note` is UI-only and omitted.
`toAccountId` and `toAmount` are the optional transfer fields. -/
structure Transaction where
  id : String
  date : CalDate
  amount : ℚ
  type : TxType
  category : String
  accountId : String
  toAccountId : Option String
  toAmount : Option ℚ
deriving DecidableEq, Repr

/-- `PortfolioItem` (`src/types/index.ts`); `currency` is declared as a
string but the code guards it with `item.currency || baseCurrency`, so it is
modelled as optional, with the empty string also falsy. -/
structure PortfolioItem where
  id : String
  symbol : String
  quantity : ℚ
  costBasis : ℚ
  currentPrice : ℚ
  currency : Option Currency
deriving DecidableEq, Repr

/-- `Settings` (`src/types/index.ts`); the engine reads `baseCurrency` and
`exchangeRates` (`theme`, `categories`, `accountTypes` are UI-only). -/
structure Settings where
  baseCurrency : Currency
  exchangeRates : RateTable

/-- JavaScript `item.currency || settings.baseCurrency`: `undefined` and the
empty string are falsy. -/
def currencyOrBase (item : PortfolioItem) (base : Currency) : Currency :=
  match item.currency with
  | some c => if c = "" then base else c
  | none => base

/-- Result record of `calculatePortfolioStats`. -/
structure PortfolioStats where
  totalCost : JsNum
  totalValue : JsNum
  totalGainLoss : JsNum
  totalGainLossPercent : JsNum
deriving DecidableEq, Repr

/-- `src/utils/financeCalculations.ts`, `calculatePortfolioStats`. -/
def calculatePortfolioStats (portfolio : List PortfolioItem) (s : Settings) :
    PortfolioStats :=
  let totalCost := portfolio.foldl
    (fun acc item =>
      jadd acc (convertCurrency item.costBasis (currencyOrBase item s.baseCurrency)
        s.baseCurrency s.exchangeRates))
    (.finite 0)
  let totalValue := portfolio.foldl
    (fun acc item =>
      jadd acc (convertCurrency (item.quantity * item.currentPrice)
        (currencyOrBase item s.baseCurrency) s.baseCurrency s.exchangeRates))
    (.finite 0)
  let totalGainLoss := jsub totalValue totalCost
  let totalGainLossPercent :=
    if jgt totalCost (.finite 0) then jmul (jdiv totalGainLoss totalCost) (.finite 100)
    else .finite 0
  ⟨totalCost, totalValue, totalGainLoss, totalGainLossPercent⟩

/-- JavaScript `settings.exchangeRates[c] || 1`: both an absent entry
(`undefined`) and a zero rate are falsy and fall back to `1`. -/
def rateOr1 (rates : RateTable) (c : Currency) : ℚ :=
  match rates c with
  | some r => if r = 0 then 1 else r
  | none => 1

/-- `accounts.find(a => a.id === accId)`. -/
def findAccount (accounts : List Account) (accId : String) : Option Account :=
  accounts.find? (fun a => a.id == accId)

/-- The per-transaction contribution of the global fold inside
`getCashBalanceAtDate` (lines 54–93 of `financeCalculations.ts`). All rates
here pass through `|| 1`, so every quantity is finite and the fold lives in
ℚ. The destination leg is guarded by JavaScript truthiness
(`if (t.toAccountId)`, line 78): both an absent id and the empty string are
falsy and skip the leg. -/
def cashTxContribution (accounts : List Account) (s : Settings)
    (targetEnd : CalDate) (t : Transaction) : ℚ :=
  if isAfter t.date targetEnd then 0
  else
    match findAccount accounts t.accountId with
    | none => 0
    | some account =>
      let rate := rateOr1 s.exchangeRates account.currency
      let baseRate := rateOr1 s.exchangeRates s.baseCurrency
      let amountInBase := (t.amount / rate) * baseRate
      match t.type with
      | .Income => amountInBase
      | .Expense => -amountInBase
      | .Transfer =>
        match t.toAccountId with
        | none => -amountInBase
        | some toId =>
          if toId = "" then -amountInBase
          else
            match findAccount accounts toId with
            | none => -amountInBase
            | some toAccount =>
              match t.toAmount with
              | some toAmt =>
                -amountInBase
                  + (toAmt / rateOr1 s.exchangeRates toAccount.currency) * baseRate
              | none => -amountInBase + amountInBase

/-- `src/utils/financeCalculations.ts`, `getCashBalanceAtDate`: the sum of
all accounts' initial balances converted with `convertCurrency` (which can
be `NaN`), plus a global fold over transactions using `|| 1` rate
fallbacks. -/
def getCashBalanceAtDate (accounts : List Account) (transactions : List Transaction)
    (date : CalDate) (s : Settings) : JsNum :=
  let totalInitial := accounts.foldl
    (fun acc account =>
      jadd acc (convertCurrency account.initialBalance account.currency
        s.baseCurrency s.exchangeRates))
    (.finite 0)
  let targetEnd := endOfMonth date
  let totalTransactions := transactions.foldl
    (fun acc t => acc + cashTxContribution accounts s targetEnd t) 0
  jadd totalInitial (.finite totalTransactions)

/-- The per-transaction amount of the fold inside `getAccountBalanceAtDate`
(lines 120–135 of `financeCalculations.ts`). -/
def accountTxAmount (account : Account) (t : Transaction) : ℚ :=
  if t.type = .Income ∧ t.accountId = account.id then t.amount
  else if t.type = .Expense ∧ t.accountId = account.id then -t.amount
  else if t.type = .Transfer then
    if t.accountId = account.id then -t.amount
    else if t.toAccountId = some account.id then
      match t.toAmount with
      | some toAmt => toAmt
      | none => t.amount
    else 0
  else 0

/-- The relevance-and-cutoff filter of `getAccountBalanceAtDate`
(lines 114–117). -/
def relevantTo (account : Account) (targetEnd : CalDate) (t : Transaction) : Bool :=
  (!(isAfter t.date targetEnd)) && (t.accountId == account.id || t.toAccountId == some account.id)

/-- `src/utils/financeCalculations.ts`, `getAccountBalanceAtDate`: initial
balance plus the fold of `accountTxAmount` over the filtered transactions.
All arithmetic is finite, so the result lives in ℚ. -/
def getAccountBalanceAtDate (account : Account) (transactions : List Transaction)
    (date : CalDate) : ℚ :=
  let targetEnd := endOfMonth date
  let accountTransactions := transactions.filter (relevantTo account targetEnd)
  account.initialBalance +
    accountTransactions.foldl (fun acc t => acc + accountTxAmount account t) 0

/-- `src/utils/financeCalculations.ts`, `calculatePercentageChange`. -/
def calculatePercentageChange (current previous : ℚ) : ℚ :=
  if previous = 0 then 0 else (current - previous) / previous * 100

/-- Spec-side definition (§4.2): the aggregate cash balance as the sum of
independently replayed, currency-converted per-account balances. Used to
compare `getCashBalanceAtDate` against the specification's defining
equation. -/
def perAccountCashSum (accounts : List Account) (transactions : List Transaction)
    (date : CalDate) (s : Settings) : JsNum :=
  accounts.foldl
    (fun acc a =>
      jadd acc (convertCurrency (getAccountBalanceAtDate a transactions date)
        a.currency s.baseCurrency s.exchangeRates))
    (.finite 0)

/-- Spec-side per-transaction delta (§4.2): Income on this account `+amount`;
Expense on this account `-amount`; Transfer where this account is source
`-amount`; Transfer where this account is destination `+destinationAmount`
if present, else `+amount`. -/
def specTransactionDelta (account : Account) (t : Transaction) : ℚ :=
  match t.type with
  | .Income => if t.accountId = account.id then t.amount else 0
  | .Expense => if t.accountId = account.id then -t.amount else 0
  | .Transfer =>
    if t.accountId = account.id then -t.amount
    else if t.toAccountId = some account.id then
      (match t.toAmount with
       | some toAmt => toAmt
       | none => t.amount)
    else 0

/-- Error taxonomy of spec §7 relevant to conversion. -/
inductive ConvError where
  | unknownCurrency : ConvError
deriving DecidableEq, Repr

/-- Spec-side definition (§4.1): `convert` fails with `UnknownCurrency` when
`from` or `to` is absent from the rate table (and `from ≠ to`), otherwise
returns `(amount / rates[from]) * rates[to]` (identity when `from = to`). -/
def convertCurrencySpec (amount : ℚ) (from_ to_ : Currency) (rates : RateTable) :
    Except ConvError ℚ :=
  if from_ = to_ then .ok amount
  else
    match rates from_, rates to_ with
    | some rf, some rt => .ok ((amount / rf) * rt)
    | _, _ => .error .unknownCurrency

/-- A rate table with only USD and EUR (anchor USD, EUR at rate 2). -/
def ratesUE : RateTable :=
  fun c => if c = "USD" then some 1 else if c = "EUR" then some 2 else none

/-- Settings with base currency USD over `ratesUE`. -/
def settingsUE : Settings := ⟨"USD", ratesUE⟩

/-- A fixed query date. -/
def d0 : CalDate := ⟨2024, 1, 15⟩

/-- Account `a`: USD, initial balance 0. -/
def acctA : Account := ⟨"a", 0, "USD"⟩

/-- Account `b`: EUR, initial balance 0. -/
def acctB : Account := ⟨"b", 0, "EUR"⟩

/-- A cross-currency transfer of 10 from `a` to `b` with no explicit
destination amount. -/
def txCross : Transaction :=
  ⟨"t1", ⟨2024, 1, 10⟩, 10, .Transfer, "", "a", some "b", none⟩

/-- A cross-currency transfer of 10 from `a` to `b` with an explicit
destination amount of 9. -/
def txCrossTo : Transaction :=
  ⟨"t1b", ⟨2024, 1, 10⟩, 10, .Transfer, "", "a", some "b", some 9⟩

/-- A same-account transfer of 30 on account `a`, no destination amount. -/
def txSame : Transaction :=
  ⟨"t2", ⟨2024, 1, 10⟩, 30, .Transfer, "", "a", some "a", none⟩

/-- Account `a` with initial balance 100 (USD). -/
def acctA100 : Account := ⟨"a", 100, "USD"⟩

/-- Settings whose base currency `XYZ` has no entry in the rate table. -/
def settingsXYZ : Settings := ⟨"XYZ", ratesUE⟩

/-- An account denominated in the unknown currency `XYZ`. -/
def acctX : Account := ⟨"x", 0, "XYZ"⟩

/-- An Income of 100 on account `x`. -/
def txIncomeX : Transaction :=
  ⟨"t3", ⟨2024, 1, 10⟩, 100, .Income, "Salary", "x", none, none⟩

/-- A transfer of 10 whose source account id `ghost` is dangling and whose
destination is account `b`. -/
def txGhost : Transaction :=
  ⟨"t4", ⟨2024, 1, 10⟩, 10, .Transfer, "", "ghost", some "b", none⟩

/-- A holding with zero cost basis and market value 50. -/
def holdingZeroCost : PortfolioItem := ⟨"h1", "ZZZ", 5, 0, 10, some "USD"⟩

/-- A holding with cost basis 20 and market value 50. -/
def holdingGain : PortfolioItem := ⟨"h2", "YYY", 5, 20, 10, some "USD"⟩

/-- A holding with no currency field, cost basis 7, quantity 3, price 2. -/
def holdingNoCurrency : PortfolioItem := ⟨"h3", "XXX", 3, 7, 2, none⟩

/-- Spec §8 test 3: account `A`, initial 100 USD. -/
def specA : Account := ⟨"A", 100, "USD"⟩

/-- Spec §8 test 3: account `B`, initial 0 USD. -/
def specB : Account := ⟨"B", 0, "USD"⟩

/-- Spec §8 test 3: one Income of 50 on `A`. -/
def txInc50 : Transaction := ⟨"i1", ⟨2024, 1, 5⟩, 50, .Income, "", "A", none, none⟩

/-- Spec §8 test 3: one Transfer of 30 from `A` to `B`, no destination
amount. -/
def txTr30 : Transaction := ⟨"r1", ⟨2024, 1, 6⟩, 30, .Transfer, "", "A", some "B", none⟩

/-! ## Helper lemmas -/

/-- A fold that adds `f x` at each step is the start value plus the sum of
the mapped list. -/
lemma foldl_add_eq {α : Type} (f : α → ℚ) (s : ℚ) (l : List α) :
    l.foldl (fun acc x => acc + f x) s = s + (l.map f).sum := by
  induction l generalizing s with
  | nil => simp
  | cons x rest ih => simp [ih, add_assoc]

/-- Adding two finite JavaScript numbers is exact rational addition. -/
lemma jadd_finite (a b : ℚ) : jadd (.finite a) (.finite b) = .finite (a + b) := rfl

/-- A `jadd` fold over elements that are all finite is finite, with value the
sum of the underlying rationals. -/
lemma foldl_jadd_finite {α : Type} (f : α → JsNum) (g : α → ℚ) (l : List α)
    (h : ∀ x ∈ l, f x = .finite (g x)) (s : ℚ) :
    l.foldl (fun acc x => jadd acc (f x)) (.finite s) = .finite (s + (l.map g).sum) := by
  induction l generalizing s with
  | nil => simp
  | cons x rest ih =>
    have hx := h x (by simp)
    have hrest : ∀ y ∈ rest, f y = .finite (g y) := fun y hy => h y (by simp [hy])
    rw [List.foldl_cons, hx, jadd_finite, ih hrest]
    simp [add_assoc]

/-- Summing a mapped filter equals summing with a zero guard. -/
lemma sum_map_filter_eq_guard {α : Type} (p : α → Bool) (f : α → ℚ) (l : List α) :
    ((l.filter p).map f).sum = (l.map (fun x => if p x then f x else 0)).sum := by
  induction l with
  | nil => simp
  | cons x rest ih =>
    by_cases hx : p x <;> simp [List.filter_cons, hx, ih]

/-- A mapped sum of zeros is zero. -/
lemma sum_map_zero {α : Type} (f : α → ℚ) (l : List α)
    (h : ∀ x ∈ l, f x = 0) : (l.map f).sum = 0 := by
  induction l with
  | nil => simp
  | cons x rest ih =>
    simp [h x (by simp), ih (fun y hy => h y (by simp [hy]))]

/-- Mapped sums agree when the functions agree on the list. -/
lemma sum_map_congr {α : Type} (f g : α → ℚ) (l : List α)
    (h : ∀ x ∈ l, f x = g x) : (l.map f).sum = (l.map g).sum := by
  induction l with
  | nil => simp
  | cons x rest ih =>
    simp [h x (by simp), ih (fun y hy => h y (by simp [hy]))]

/-- Pointwise addition distributes over a mapped sum. -/
lemma sum_map_add {α : Type} (f g : α → ℚ) (l : List α) :
    (l.map (fun x => f x + g x)).sum = (l.map f).sum + (l.map g).sum := by
  induction l with
  | nil => simp
  | cons x rest ih => simp [ih]; ring

/-- Double mapped sums commute. -/
lemma sum_map_swap {α β : Type} (l1 : List α) (l2 : List β) (f : α → β → ℚ) :
    (l1.map (fun a => (l2.map (f a)).sum)).sum
      = (l2.map (fun b => (l1.map (fun a => f a b)).sum)).sum := by
  induction l1 with
  | nil => simp [sum_map_zero]
  | cons x rest ih =>
    simp only [List.map_cons, List.sum_cons, ih]
    rw [← sum_map_add]

/-- In a list of accounts with pairwise-distinct ids, equality of ids implies
equality of elements. -/
lemma account_id_inj {l : List Account} (hnd : (l.map Account.id).Nodup)
    {a b : Account} (ha : a ∈ l) (hb : b ∈ l) (hid : a.id = b.id) : a = b :=
  List.inj_on_of_nodup_map hnd ha hb hid

/-- If no account in the list has the requested id, `find` returns nothing. -/
lemma findAccount_eq_none {l : List Account} {x : String}
    (h : ∀ a ∈ l, a.id ≠ x) : findAccount l x = none := by
  apply List.find?_eq_none.mpr
  intro a ha
  simp [h a ha]

/-- With pairwise-distinct ids, `find` returns exactly the member that has
the requested id. -/
lemma findAccount_eq_some {l : List Account} (hnd : (l.map Account.id).Nodup)
    {A : Account} (hA : A ∈ l) {x : String} (hid : A.id = x) :
    findAccount l x = some A := by
  induction l with
  | nil => cases hA
  | cons y rest ih =>
    rw [List.map_cons, List.nodup_cons] at hnd
    by_cases hy : y.id = x
    · have hyA : y = A := by
        rcases List.mem_cons.mp hA with h | h
        · exact h.symm
        · exfalso
          apply hnd.1
          rw [hy, ← hid]
          exact List.mem_map_of_mem Account.id h
      simp [findAccount, List.find?_cons, hyA, hid]
    · have hA' : A ∈ rest := by
        rcases List.mem_cons.mp hA with h | h
        · exact absurd (h ▸ hid) hy
        · exact h
      have := ih hnd.2 hA'
      simpa [findAccount, List.find?_cons, hy] using this

/-- A member of the `find` result is in the list and has the requested id. -/
lemma findAccount_spec {l : List Account} {x : String} {A : Account}
    (h : findAccount l x = some A) : A ∈ l ∧ A.id = x := by
  refine ⟨List.mem_of_find?_eq_some h, ?_⟩
  have := List.find?_some h
  simpa using this

/-- A mapped sum over accounts with distinct ids, of a function supported on
a single id, collapses to the value at the carrying member. -/
lemma sum_map_single {l : List Account} (hnd : (l.map Account.id).Nodup)
    {A : Account} (hA : A ∈ l) (f : Account → ℚ)
    (hf : ∀ a ∈ l, a.id ≠ A.id → f a = 0) : (l.map f).sum = f A := by
  induction l with
  | nil => cases hA
  | cons y rest ih =>
    rw [List.map_cons, List.nodup_cons] at hnd
    rw [List.map_cons, List.sum_cons]
    by_cases hy : y.id = A.id
    · have hyA : y = A := by
        rcases List.mem_cons.mp hA with h | h
        · exact h.symm
        · exact absurd (hy ▸ List.mem_map_of_mem Account.id h) hnd.1
      have hzero : (rest.map f).sum = 0 := by
        apply sum_map_zero
        intro a ha
        apply hf a (List.mem_cons_of_mem _ ha)
        intro hcontra
        exact hnd.1 (hy ▸ hcontra ▸ List.mem_map_of_mem Account.id ha)
      rw [hyA, hzero, add_zero]
    · have hA' : A ∈ rest := by
        rcases List.mem_cons.mp hA with h | h
        · exact absurd (h ▸ rfl) hy
        · exact h
      rw [hf y (by simp) hy, zero_add]
      exact ih hnd.2 hA'
        (fun a ha hne => hf a (List.mem_cons_of_mem _ ha) hne)

/-- A mapped sum over accounts with distinct ids, of a function supported on
two distinct ids, collapses to the sum of the two carrying values. -/
lemma sum_map_pair {l : List Account} (hnd : (l.map Account.id).Nodup)
    {A B : Account} (hA : A ∈ l) (hB : B ∈ l) (hAB : A.id ≠ B.id)
    (f : Account → ℚ)
    (hf : ∀ a ∈ l, a.id ≠ A.id → a.id ≠ B.id → f a = 0) :
    (l.map f).sum = f A + f B := by
  have hsplit : ∀ a ∈ l,
      f a = (if a.id = A.id then f a else 0) + (if a.id = B.id then f a else 0) := by
    intro a _
    by_cases h1 : a.id = A.id
    · by_cases h2 : a.id = B.id
      · exact absurd (h1.symm.trans h2) hAB
      · simp [h1, h2, hAB]
    · by_cases h2 : a.id = B.id
      · have hBA : ¬ B.id = A.id := fun h => hAB h.symm
        simp [h1, h2, hBA]
      · simp [h1, h2, hf a (by assumption) h1 h2]
  rw [sum_map_congr _ _ _ hsplit, sum_map_add]
  have h1 : (l.map (fun a => if a.id = A.id then f a else 0)).sum = f A := by
    have := sum_map_single hnd hA (fun a => if a.id = A.id then f a else 0)
      (fun a _ hne => by simp [hne])
    simpa using this
  have h2 : (l.map (fun a => if a.id = B.id then f a else 0)).sum = f B := by
    have := sum_map_single hnd hB (fun a => if a.id = B.id then f a else 0)
      (fun a _ hne => by simp [hne])
    simpa using this
  rw [h1, h2]

/-- Multiplying by `NaN` on the left gives `NaN`. -/
lemma jmul_nan_left (x : JsNum) : jmul .nan x = .nan := by cases x <;> rfl

/-- Multiplying by `NaN` on the right gives `NaN`. -/
lemma jmul_nan_right (x : JsNum) : jmul x .nan = .nan := by cases x <;> rfl

/-- Dividing by `NaN` gives `NaN`. -/
lemma jdiv_nan_right (x : JsNum) : jdiv x .nan = .nan := by cases x <;> rfl

/-- Division of finite values by a nonzero divisor is exact division. -/
lemma jdiv_finite (a b : ℚ) (hb : b ≠ 0) :
    jdiv (.finite a) (.finite b) = .finite (a / b) := by simp [jdiv, hb]

/-- Multiplication of finite values is exact multiplication. -/
lemma jmul_finite (a b : ℚ) : jmul (.finite a) (.finite b) = .finite (a * b) := rfl

/-- Subtraction of finite values is exact subtraction. -/
lemma jsub_finite (a b : ℚ) :
    jsub (.finite a) (.finite b) = .finite (a - b) := by
  simp [jsub, jadd, jneg, sub_eq_add_neg]

/-- The strict comparison of finite values is the rational comparison. -/
lemma jgt_finite (a b : ℚ) : jgt (.finite a) (.finite b) = decide (b < a) := rfl

/-- Converting between equal currency codes is the exact identity. -/
lemma convertCurrency_self (amount : ℚ) (c : Currency) (rates : RateTable) :
    convertCurrency amount c c rates = .finite amount := by
  simp [convertCurrency]

/-- The `|| 1` fallback rate is never zero. -/
lemma rateOr1_ne_zero (rates : RateTable) (c : Currency) : rateOr1 rates c ≠ 0 := by
  unfold rateOr1
  cases h : rates c with
  | none => exact one_ne_zero
  | some r =>
    by_cases hr : r = 0
    · simp [hr]
    · simp [hr]

/-- When the entry is present and nonzero, the `|| 1` fallback reads it. -/
lemma rateOr1_of_present {rates : RateTable} {c : Currency}
    (h1 : rates c ≠ none) (h2 : rates c ≠ some 0) :
    ∃ r, rates c = some r ∧ r ≠ 0 ∧ rateOr1 rates c = r := by
  cases h : rates c with
  | none => exact absurd h h1
  | some r =>
    refine ⟨r, rfl, fun hr => h2 (hr ▸ h), ?_⟩
    have hr : r ≠ 0 := fun hr => h2 (hr ▸ h)
    simp [rateOr1, h, hr]

/-- The rational value of converting `x` from currency `c` into the base
currency using the `|| 1` fallback rates: `(x / rate) * baseRate`, the
shape of `amountInBase` in `getCashBalanceAtDate`. -/
def baseConvert (s : Settings) (c : Currency) (x : ℚ) : ℚ :=
  (x / rateOr1 s.exchangeRates c) * rateOr1 s.exchangeRates s.baseCurrency

/-- `baseConvert` of zero is zero. -/
lemma baseConvert_zero (s : Settings) (c : Currency) : baseConvert s c 0 = 0 := by
  simp [baseConvert]

/-- `baseConvert` is additive. -/
lemma baseConvert_add (s : Settings) (c : Currency) (x y : ℚ) :
    baseConvert s c (x + y) = baseConvert s c x + baseConvert s c y := by
  unfold baseConvert
  rw [add_div, add_mul]

/-- `baseConvert` respects negation. -/
lemma baseConvert_neg (s : Settings) (c : Currency) (x : ℚ) :
    baseConvert s c (-x) = -baseConvert s c x := by
  simp [baseConvert, neg_div]

/-- `baseConvert` distributes over a mapped sum. -/
lemma baseConvert_sum {α : Type} (s : Settings) (c : Currency) (f : α → ℚ)
    (l : List α) :
    baseConvert s c ((l.map f).sum) = (l.map (fun x => baseConvert s c (f x))).sum := by
  induction l with
  | nil => simp [baseConvert_zero]
  | cons x rest ih => simp [baseConvert_add, ih]

/-- When the source currency and the base currency both have nonzero entries
in the rate table, `convertCurrency` into the base currency is finite and
agrees with the `|| 1`-fallback conversion `baseConvert`. -/
lemma convertCurrency_eq_baseConvert (s : Settings) (c : Currency) (x : ℚ)
    (hc1 : s.exchangeRates c ≠ none) (hc2 : s.exchangeRates c ≠ some 0)
    (hb1 : s.exchangeRates s.baseCurrency ≠ none)
    (hb2 : s.exchangeRates s.baseCurrency ≠ some 0) :
    convertCurrency x c s.baseCurrency s.exchangeRates = .finite (baseConvert s c x) := by
  obtain ⟨r, hr, hrne, hrate⟩ := rateOr1_of_present hc1 hc2
  obtain ⟨rb, hrb, hrbne, hrbrate⟩ := rateOr1_of_present hb1 hb2
  by_cases hcb : c = s.baseCurrency
  · subst hcb
    rw [convertCurrency_self, baseConvert, hrate]
    rw [div_mul_cancel₀ x hrne]
  · unfold convertCurrency
    rw [if_neg hcb]
    unfold lookupNum
    rw [hr, hrb, jdiv_finite x r hrne, jmul_finite]
    rw [baseConvert, hrate, hrbrate]

/-- The `totalCost` fold of `calculatePortfolioStats` in isolation. -/
def portfolioTotalCost (portfolio : List PortfolioItem) (s : Settings) : JsNum :=
  portfolio.foldl
    (fun acc item =>
      jadd acc (convertCurrency item.costBasis (currencyOrBase item s.baseCurrency)
        s.baseCurrency s.exchangeRates))
    (.finite 0)

/-- The `totalValue` fold of `calculatePortfolioStats` in isolation. -/
def portfolioTotalValue (portfolio : List PortfolioItem) (s : Settings) : JsNum :=
  portfolio.foldl
    (fun acc item =>
      jadd acc (convertCurrency (item.quantity * item.currentPrice)
        (currencyOrBase item s.baseCurrency) s.baseCurrency s.exchangeRates))
    (.finite 0)

/-- The `totalCost` field is the `totalCost` fold. -/
lemma calcStats_totalCost (p : List PortfolioItem) (s : Settings) :
    (calculatePortfolioStats p s).totalCost = portfolioTotalCost p s := rfl

/-- The `totalValue` field is the `totalValue` fold. -/
lemma calcStats_totalValue (p : List PortfolioItem) (s : Settings) :
    (calculatePortfolioStats p s).totalValue = portfolioTotalValue p s := rfl

/-- The `totalGainLoss` field is the JavaScript difference of the folds. -/
lemma calcStats_totalGainLoss (p : List PortfolioItem) (s : Settings) :
    (calculatePortfolioStats p s).totalGainLoss
      = jsub (portfolioTotalValue p s) (portfolioTotalCost p s) := rfl

/-- The `totalGainLossPercent` field as computed by the source. -/
lemma calcStats_totalGainLossPercent (p : List PortfolioItem) (s : Settings) :
    (calculatePortfolioStats p s).totalGainLossPercent
      = (if jgt (portfolioTotalCost p s) (.finite 0)
          then jmul (jdiv (jsub (portfolioTotalValue p s) (portfolioTotalCost p s))
            (portfolioTotalCost p s)) (.finite 100)
          else .finite 0) := rfl

/-! ## Claim C7 -/

/-- C7: for every amount, currency code `c` and rate table,
`convertCurrency amount c c rates` returns exactly `amount`, without passing
through the division-and-multiplication pivot, even when `c` has no entry in
the rate table. -/
theorem C7_identity_conversion :
    ∀ (amount : ℚ) (c : Currency) (rates : RateTable),
      convertCurrency amount c c rates = .finite amount := by
  intro amount c rates
  simp [convertCurrency]

/-! ## Claim C3 -/

/-- C3 counterexample: at amount 10 from `USD` to `JPY` over a table that
only knows `USD` and `EUR`, the source `convertCurrency` silently returns the
number `NaN` (a plain `number`-typed value), while the specification's
`convert` (`convertCurrencySpec`, rendered from §4.1) demands a structured
`UnknownCurrency` error; the code has no error result at all, so the claim
fails at this input. -/
theorem C3_counterexample :
    convertCurrency 10 "USD" "JPY" ratesUE = .nan
      ∧ convertCurrencySpec 10 "USD" "JPY" ratesUE = .error .unknownCurrency := by
  exact ⟨by decide, rfl⟩

/-- C3 amended: for distinct currency codes, if `from` or `to` has no entry
in the rate table then `convertCurrency` returns `NaN` — a silently produced
number, not a detectable `UnknownCurrency` error value — and otherwise (with
a nonzero `from` rate) it returns `(amount / rates[from]) * rates[to]`. -/
theorem C3_missing_rate_is_nan (amount : ℚ) (from_ to_ : Currency)
    (rates : RateTable) (hne : from_ ≠ to_) :
    ((rates from_ = none ∨ rates to_ = none) →
        convertCurrency amount from_ to_ rates = .nan)
    ∧ (∀ rf rt, rates from_ = some rf → rates to_ = some rt → rf ≠ 0 →
        convertCurrency amount from_ to_ rates = .finite (amount / rf * rt)) := by
  constructor
  · intro h
    unfold convertCurrency
    rw [if_neg hne]
    rcases h with h | h
    · rw [show lookupNum rates from_ = .nan by simp [lookupNum, h]]
      rw [jdiv_nan_right, jmul_nan_left]
    · rw [show lookupNum rates to_ = .nan by simp [lookupNum, h]]
      rw [jmul_nan_right]
  · intro rf rt hf ht hrf
    unfold convertCurrency
    rw [if_neg hne]
    unfold lookupNum
    rw [hf, ht, jdiv_finite amount rf hrf, jmul_finite]

/-- Witness for the amended C3 at concrete inputs: `JPY` missing gives `NaN`;
`USD → EUR` with rates 1 and 2 gives `10`. -/
theorem C3_missing_rate_is_nan_witness :
    convertCurrency 5 "USD" "JPY" ratesUE = .nan
      ∧ convertCurrency 5 "USD" "EUR" ratesUE = .finite 10 := by
  constructor
  · exact (C3_missing_rate_is_nan 5 "USD" "JPY" ratesUE (by decide)).1
      (Or.inr (by decide))
  · have h := (C3_missing_rate_is_nan 5 "USD" "EUR" ratesUE (by decide)).2
      1 2 (by decide) (by decide) one_ne_zero
    norm_num at h
    exact h

/-! ## Claim C6 -/

/-- C6: whenever the two folds are finite, `totalGainLoss` is exactly
`totalValue - totalCost` and `totalGainLossPercent` is
`gainLoss / totalCost * 100` when `totalCost > 0` and exactly `0` otherwise;
in particular the single zero-cost holding with market value 50 yields a
gain/loss percent of exactly `0`, not a division by zero or an infinity. -/
theorem C6_gain_loss_policy :
    (∀ (p : List PortfolioItem) (s : Settings) (c v : ℚ),
      portfolioTotalCost p s = .finite c → portfolioTotalValue p s = .finite v →
      (calculatePortfolioStats p s).totalGainLoss = .finite (v - c)
        ∧ (calculatePortfolioStats p s).totalGainLossPercent
            = .finite (if 0 < c then (v - c) / c * 100 else 0))
    ∧ (calculatePortfolioStats [holdingZeroCost] settingsUE).totalGainLossPercent
        = .finite 0
    ∧ (calculatePortfolioStats [holdingZeroCost] settingsUE).totalValue
        = .finite 50 := by
  refine ⟨?_,
    by simp +decide [calculatePortfolioStats, currencyOrBase, convertCurrency,
      lookupNum, ratesUE, settingsUE, holdingZeroCost, jadd, jdiv, jmul, jgt,
      jsub, jneg],
    by simp +decide [calculatePortfolioStats, currencyOrBase, convertCurrency,
      lookupNum, ratesUE, settingsUE, holdingZeroCost, jadd, jdiv, jmul, jgt,
      jsub, jneg]; norm_num⟩
  intro p s c v hc hv
  constructor
  · rw [calcStats_totalGainLoss, hc, hv, jsub_finite]
  · rw [calcStats_totalGainLossPercent, hc, hv, jsub_finite, jgt_finite]
    by_cases h0 : 0 < c
    · have hcne : c ≠ 0 := ne_of_gt h0
      rw [jdiv_finite _ _ hcne, jmul_finite]
      simp [h0]
    · simp [h0]

/-- Witness for C6 at a holding with cost 20 and value 50: gain/loss 30 and
percent 150. -/
theorem C6_gain_loss_policy_witness :
    (calculatePortfolioStats [holdingGain] settingsUE).totalGainLoss = .finite 30
      ∧ (calculatePortfolioStats [holdingGain] settingsUE).totalGainLossPercent
          = .finite 150 := by
  have h := C6_gain_loss_policy.1 [holdingGain] settingsUE 20 50
    (by simp +decide [portfolioTotalCost, currencyOrBase, convertCurrency,
      lookupNum, ratesUE, settingsUE, holdingGain, jadd])
    (by simp +decide [portfolioTotalValue, currencyOrBase, convertCurrency,
      lookupNum, ratesUE, settingsUE, holdingGain, jadd]; norm_num)
  refine ⟨?_, ?_⟩
  · have h1 := h.1
    norm_num at h1
    exact h1
  · have h2 := h.2
    norm_num at h2
    exact h2

/-! ## Claim C10 -/

/-- C10: a portfolio item whose currency field is absent or the empty string
is valued as if denominated in the base currency: appending it to any
portfolio adds exactly `costBasis` to the cost fold and
`quantity * currentPrice` to the value fold, with no conversion and no
unknown-currency outcome. -/
theorem C10_falsy_currency_uses_base (p : List PortfolioItem)
    (item : PortfolioItem) (s : Settings)
    (h : item.currency = none ∨ item.currency = some "") :
    (calculatePortfolioStats (p ++ [item]) s).totalCost
        = jadd ((calculatePortfolioStats p s).totalCost) (.finite item.costBasis)
    ∧ (calculatePortfolioStats (p ++ [item]) s).totalValue
        = jadd ((calculatePortfolioStats p s).totalValue)
            (.finite (item.quantity * item.currentPrice)) := by
  have hbase : currencyOrBase item s.baseCurrency = s.baseCurrency := by
    rcases h with h | h <;> simp [currencyOrBase, h]
  constructor
  · rw [calcStats_totalCost, calcStats_totalCost]
    unfold portfolioTotalCost
    rw [List.foldl_append, List.foldl_cons, List.foldl_nil, hbase,
      convertCurrency_self]
  · rw [calcStats_totalValue, calcStats_totalValue]
    unfold portfolioTotalValue
    rw [List.foldl_append, List.foldl_cons, List.foldl_nil, hbase,
      convertCurrency_self]

/-- Witness for C10 at a currency-less holding with cost 7, quantity 3 and
price 2. -/
theorem C10_falsy_currency_uses_base_witness :
    (calculatePortfolioStats [holdingNoCurrency] settingsUE).totalCost = .finite 7
      ∧ (calculatePortfolioStats [holdingNoCurrency] settingsUE).totalValue
          = .finite 6 := by
  have h := C10_falsy_currency_uses_base [] holdingNoCurrency settingsUE (Or.inl rfl)
  constructor
  · have h1 := h.1
    norm_num [show (calculatePortfolioStats [] settingsUE).totalCost = .finite 0
      from rfl, jadd_finite, holdingNoCurrency] at h1
    exact h1
  · have h2 := h.2
    norm_num [show (calculatePortfolioStats [] settingsUE).totalValue = .finite 0
      from rfl, jadd_finite, holdingNoCurrency] at h2
    exact h2

/-- A transaction whose source account id is not found contributes nothing to
the global cash fold. -/
lemma cashTxContribution_zero_of_dangling (accounts : List Account) (s : Settings)
    (e : CalDate) (t : Transaction)
    (h : findAccount accounts t.accountId = none) :
    cashTxContribution accounts s e t = 0 := by
  unfold cashTxContribution
  by_cases hafter : isAfter t.date e
  · simp [hafter]
  · simp [hafter, h]

/-- A same-account transfer on a nonempty (truthy) account id, without an
explicit destination amount, contributes nothing to the global cash fold. -/
lemma cashTxContribution_zero_of_self (accounts : List Account) (s : Settings)
    (e : CalDate) (t : Transaction)
    (htype : t.type = TxType.Transfer) (hself : t.toAccountId = some t.accountId)
    (hnone : t.toAmount = none) (hne : t.accountId ≠ "") :
    cashTxContribution accounts s e t = 0 := by
  unfold cashTxContribution
  by_cases hafter : isAfter t.date e
  · simp [hafter]
  · cases hf : findAccount accounts t.accountId with
    | none => simp [hafter, hf]
    | some a => simp [hafter, hf, htype, hself, hnone, hne]

/-- Appending one transaction adds its contribution to the cash balance. -/
lemma getCashBalanceAtDate_append (accounts : List Account)
    (txs : List Transaction) (t : Transaction) (d : CalDate) (s : Settings) :
    getCashBalanceAtDate accounts (txs ++ [t]) d s
      = jadd
          (accounts.foldl
            (fun acc account =>
              jadd acc (convertCurrency account.initialBalance account.currency
                s.baseCurrency s.exchangeRates))
            (.finite 0))
          (.finite (txs.foldl
              (fun acc u => acc + cashTxContribution accounts s (endOfMonth d) u) 0
            + cashTxContribution accounts s (endOfMonth d) t)) := by
  simp only [getCashBalanceAtDate, List.foldl_append, List.foldl_cons, List.foldl_nil]

/-- Appending one transaction adds its guarded amount to the account
balance. -/
lemma getAccountBalanceAtDate_append (account : Account)
    (txs : List Transaction) (t : Transaction) (d : CalDate) :
    getAccountBalanceAtDate account (txs ++ [t]) d
      = getAccountBalanceAtDate account txs d
        + (if relevantTo account (endOfMonth d) t then accountTxAmount account t
           else 0) := by
  simp only [getAccountBalanceAtDate]
  rw [List.filter_append]
  by_cases hrel : relevantTo account (endOfMonth d) t
  · simp [List.filter_cons, hrel, List.foldl_append, add_assoc]
  · simp [List.filter_cons, hrel]

/-! ## Claim C2 -/

/-- C2 counterexample: a Transfer of 30 on account `a` with
`toAccountId = accountId = "a"` is not a no-op for `getAccountBalanceAtDate`:
adding it drops the balance from 100 to 70 (the source leg is applied and
the destination leg is unreachable). -/
theorem C2_counterexample :
    getAccountBalanceAtDate acctA100 [txSame] d0 = 70
      ∧ getAccountBalanceAtDate acctA100 [] d0 = 100 := by
  constructor
  · simp +decide [getAccountBalanceAtDate, relevantTo, accountTxAmount, isAfter,
      endOfMonth, daysInMonth, isLeapYear, acctA100, txSame, d0]
    norm_num
  · simp [getAccountBalanceAtDate, acctA100]

/-- C2 amended: a Transfer whose destination account id equals its source
account id leaves `getCashBalanceAtDate` unchanged when it has no explicit
destination amount and its account id is nonempty (the empty string is falsy
in the source's `if (t.toAccountId)` guard, so there the destination leg is
skipped and even the cash balance drops); and it is never a no-op for
`getAccountBalanceAtDate`: when dated inside the cutoff it decreases the
account's balance by `amount`. -/
theorem C2_same_account_transfer (accounts : List Account)
    (txs : List Transaction) (t : Transaction) (d : CalDate) (s : Settings)
    (account : Account)
    (htype : t.type = TxType.Transfer) (hself : t.toAccountId = some t.accountId) :
    (t.toAmount = none → t.accountId ≠ "" →
      getCashBalanceAtDate accounts (txs ++ [t]) d s
        = getCashBalanceAtDate accounts txs d s)
    ∧ (t.accountId = account.id → isAfter t.date (endOfMonth d) = false →
      getAccountBalanceAtDate account (txs ++ [t]) d
        = getAccountBalanceAtDate account txs d - t.amount) := by
  constructor
  · intro hnone hne
    rw [getCashBalanceAtDate_append,
      cashTxContribution_zero_of_self accounts s (endOfMonth d) t htype hself
        hnone hne,
      add_zero]
    simp only [getCashBalanceAtDate]
  · intro hacc hdate
    rw [getAccountBalanceAtDate_append]
    have hrel : relevantTo account (endOfMonth d) t = true := by
      simp [relevantTo, hdate, hacc]
    have hamt : accountTxAmount account t = -t.amount := by
      simp [accountTxAmount, htype, hacc]
    rw [hrel, if_pos rfl, hamt, sub_eq_add_neg]

/-- Witness for the amended C2: the same-account transfer `txSame` leaves the
cash balance at 100 and drops account `a`'s balance to 70. -/
theorem C2_same_account_transfer_witness :
    getCashBalanceAtDate [acctA100] [txSame] d0 settingsUE
        = getCashBalanceAtDate [acctA100] [] d0 settingsUE
      ∧ getAccountBalanceAtDate acctA100 [txSame] d0
          = getAccountBalanceAtDate acctA100 [] d0 - 30 := by
  have h := C2_same_account_transfer [acctA100] [] txSame d0 settingsUE acctA100
    rfl rfl
  exact ⟨h.1 rfl (by decide), h.2 rfl (by decide)⟩

/-! ## Claim C4 -/

/-- C4 counterexample: account `x` is denominated in `XYZ`, which has no
entry in the rate table and is also the base currency; an Income of 100 on
`x` makes `getCashBalanceAtDate` return the plain number 100 — the missing
rate is silently replaced by 1 (`rates[c] || 1`) and no `UnknownCurrency`
error surfaces. -/
theorem C4_counterexample :
    getCashBalanceAtDate [acctX] [txIncomeX] d0 settingsXYZ = .finite 100 := by
  simp +decide [getCashBalanceAtDate, cashTxContribution, findAccount, rateOr1,
    convertCurrency, lookupNum, isAfter, endOfMonth, daysInMonth, isLeapYear,
    acctX, txIncomeX, d0, settingsXYZ, ratesUE, jadd]

/-- C4 amended: in `getCashBalanceAtDate` a currency with no entry in the
rate table is not surfaced as an error: when the account's currency equals
the base currency and is absent from the table, the transaction fold treats
the rate as exactly 1 and an Income of `amount` yields the plain value
`initialBalance + amount`. -/
theorem C4_rate_one_fallback (a : Account) (t : Transaction) (d : CalDate)
    (s : Settings)
    (hmiss : s.exchangeRates a.currency = none) (hbase : a.currency = s.baseCurrency)
    (htype : t.type = TxType.Income) (hacc : t.accountId = a.id)
    (hdate : isAfter t.date (endOfMonth d) = false) :
    getCashBalanceAtDate [a] [t] d s = .finite (a.initialBalance + t.amount) := by
  have hr : rateOr1 s.exchangeRates a.currency = 1 := by simp [rateOr1, hmiss]
  have hrb : rateOr1 s.exchangeRates s.baseCurrency = 1 := by
    simp [rateOr1, ← hbase, hmiss]
  have hfind : findAccount [a] t.accountId = some a := by
    simp [findAccount, hacc]
  have hconv : convertCurrency a.initialBalance a.currency s.baseCurrency
      s.exchangeRates = .finite a.initialBalance := by
    rw [hbase, convertCurrency_self]
  have hcontrib : cashTxContribution [a] s (endOfMonth d) t = t.amount := by
    unfold cashTxContribution
    rw [hdate]
    simp only [Bool.false_eq_true, if_false, hfind, hr, hrb, htype]
    norm_num
  simp only [getCashBalanceAtDate, List.foldl_cons, List.foldl_nil, hconv,
    hcontrib, jadd_finite]
  norm_num

/-- Witness for the amended C4 at the concrete `XYZ` fixture. -/
theorem C4_rate_one_fallback_witness :
    getCashBalanceAtDate [acctX] [txIncomeX] d0 settingsXYZ = .finite (0 + 100) := by
  exact C4_rate_one_fallback acctX txIncomeX d0 settingsXYZ (by decide) rfl rfl rfl
    (by decide)

/-! ## Claim C8 -/

/-- C8: for a fixed account and transaction list, `getAccountBalanceAtDate`
returns the same value at any two instants falling in the same calendar
month — the cutoff depends only on the month, not on the day. -/
theorem C8_month_snapshot_stability (account : Account)
    (txs : List Transaction) (d1 d2 : CalDate)
    (hy : d1.year = d2.year) (hm : d1.month = d2.month) :
    getAccountBalanceAtDate account txs d1 = getAccountBalanceAtDate account txs d2 := by
  have he : endOfMonth d1 = endOfMonth d2 := by
    simp [endOfMonth, hy, hm]
  simp only [getAccountBalanceAtDate, he]

/-- Witness for C8: the first and last day of January 2024 give the same
balance for account `A` under the two spec transactions. -/
theorem C8_month_snapshot_stability_witness :
    getAccountBalanceAtDate specA [txInc50, txTr30] ⟨2024, 1, 1⟩
      = getAccountBalanceAtDate specA [txInc50, txTr30] ⟨2024, 1, 31⟩ :=
  C8_month_snapshot_stability specA [txInc50, txTr30] ⟨2024, 1, 1⟩ ⟨2024, 1, 31⟩
    rfl rfl

/-! ## Claim C9 -/

/-- C9 counterexample: the transfer `txGhost` references the dangling source
account id `ghost`, yet it is not excluded from `getAccountBalanceAtDate`'s
fold: adding it changes account `b`'s balance from 0 to 10, because that
fold never consults the accounts collection. -/
theorem C9_counterexample :
    getAccountBalanceAtDate acctB [txGhost] d0 = 10
      ∧ getAccountBalanceAtDate acctB [] d0 = 0 := by
  constructor
  · simp +decide [getAccountBalanceAtDate, relevantTo, accountTxAmount, isAfter,
      endOfMonth, daysInMonth, isLeapYear, acctB, txGhost, d0]
  · simp [getAccountBalanceAtDate, acctB]

/-- C9 amended: `getCashBalanceAtDate` does exclude (without crashing) any
transaction whose source account id is not found in the accounts collection:
appending such a transaction leaves its result unchanged.
(`getAccountBalanceAtDate`, by contrast, never consults the accounts
collection, so a dangling source id does not shield the destination leg
there.) -/
theorem C9_cash_excludes_dangling_source (accounts : List Account)
    (txs : List Transaction) (t : Transaction) (d : CalDate) (s : Settings)
    (h : findAccount accounts t.accountId = none) :
    getCashBalanceAtDate accounts (txs ++ [t]) d s
      = getCashBalanceAtDate accounts txs d s := by
  rw [getCashBalanceAtDate_append,
    cashTxContribution_zero_of_dangling accounts s (endOfMonth d) t h, add_zero]
  simp only [getCashBalanceAtDate]

/-- Witness for the amended C9: appending `txGhost` leaves the cash balance
of accounts `a`, `b` unchanged. -/
theorem C9_cash_excludes_dangling_source_witness :
    getCashBalanceAtDate [acctA, acctB] [txGhost] d0 settingsUE
      = getCashBalanceAtDate [acctA, acctB] [] d0 settingsUE :=
  C9_cash_excludes_dangling_source [acctA, acctB] [] txGhost d0 settingsUE
    (by decide)

/-! ## Claim C5 -/

/-- Spec-side relevance predicate (§4.2): the transaction touches the account
as source or destination and its date is not after the end of the calendar
month containing the instant. -/
def specRelevant (account : Account) (monthEnd : CalDate) (t : Transaction) : Bool :=
  (t.accountId == account.id || t.toAccountId == some account.id)
    && (!(isAfter t.date monthEnd))

/-- The spec-side relevance test coincides with the source's filter. -/
lemma specRelevant_eq_relevantTo (account : Account) (monthEnd : CalDate)
    (t : Transaction) :
    specRelevant account monthEnd t = relevantTo account monthEnd t := by
  simp [specRelevant, relevantTo, Bool.and_comm]

/-- The spec-side per-transaction delta agrees with the source's fold body. -/
lemma specTransactionDelta_eq (account : Account) (t : Transaction) :
    specTransactionDelta account t = accountTxAmount account t := by
  cases ht : t.type <;>
    simp [specTransactionDelta, accountTxAmount, ht]

/-- The account balance is the initial balance plus the sum of the filtered,
mapped transaction deltas. -/
lemma getAccountBalanceAtDate_eq_sum (account : Account)
    (txs : List Transaction) (d : CalDate) :
    getAccountBalanceAtDate account txs d
      = account.initialBalance
        + ((txs.filter (relevantTo account (endOfMonth d))).map
            (accountTxAmount account)).sum := by
  simp only [getAccountBalanceAtDate]
  rw [foldl_add_eq, zero_add]

/-- C5: `getAccountBalanceAtDate` equals the initial balance plus the fold,
over exactly the transactions touching the account (as source or
destination) dated not after the end of the month of the instant, of the
spec's per-type deltas; and on the spec's concrete instance the balances are
120 for `A` and 30 for `B`. -/
theorem C5_balance_fold :
    (∀ (account : Account) (txs : List Transaction) (d : CalDate),
      getAccountBalanceAtDate account txs d
        = account.initialBalance
          + ((txs.filter (specRelevant account (endOfMonth d))).map
              (specTransactionDelta account)).sum)
    ∧ getAccountBalanceAtDate specA [txInc50, txTr30] d0 = 120
    ∧ getAccountBalanceAtDate specB [txInc50, txTr30] d0 = 30 := by
  refine ⟨?_, ?_, ?_⟩
  · intro account txs d
    rw [getAccountBalanceAtDate_eq_sum]
    congr 1
    rw [List.filter_congr
      (fun t _ => specRelevant_eq_relevantTo account (endOfMonth d) t)]
    exact (sum_map_congr _ _ _
      (fun t _ => specTransactionDelta_eq account t)).symm
  · simp +decide [getAccountBalanceAtDate, relevantTo, accountTxAmount, isAfter,
      endOfMonth, daysInMonth, isLeapYear, specA, txInc50, txTr30, d0]
    norm_num
  · simp +decide [getAccountBalanceAtDate, relevantTo, accountTxAmount, isAfter,
      endOfMonth, daysInMonth, isLeapYear, specB, txInc50, txTr30, d0]

/-! ## Claim C1 -/

/-- A transaction that touches an account neither as source nor as
destination contributes nothing to that account's fold. -/
lemma accountTxAmount_zero_of_unrelated (account : Account) (t : Transaction)
    (h1 : t.accountId ≠ account.id) (h2 : t.toAccountId ≠ some account.id) :
    accountTxAmount account t = 0 := by
  simp [accountTxAmount, h1, h2]

/-- For one transaction satisfying the side conditions, the sum over all
accounts of the converted per-account effect equals the transaction's
contribution to the global cash fold. -/
lemma sum_baseConvert_effect (accounts : List Account) (s : Settings)
    (e : CalDate) (t : Transaction)
    (hnd : (accounts.map Account.id).Nodup)
    (hids : ∀ a ∈ accounts, a.id ≠ "")
    (hsrc : t.type = TxType.Transfer → findAccount accounts t.accountId ≠ none)
    (hnoself : t.type = TxType.Transfer → t.toAccountId ≠ some t.accountId)
    (hleg : ∀ A B toId, t.type = TxType.Transfer → t.toAmount = none →
      t.toAccountId = some toId → findAccount accounts t.accountId = some A →
      findAccount accounts toId = some B →
      rateOr1 s.exchangeRates A.currency = rateOr1 s.exchangeRates B.currency) :
    (accounts.map (fun a => baseConvert s a.currency
        (if relevantTo a e t then accountTxAmount a t else 0))).sum
      = cashTxContribution accounts s e t := by
  by_cases hafter : isAfter t.date e
  · have hc : cashTxContribution accounts s e t = 0 := by
      simp [cashTxContribution, hafter]
    rw [hc]
    apply sum_map_zero
    intro a _
    have hrel : relevantTo a e t = false := by simp [relevantTo, hafter]
    rw [hrel]
    simp [baseConvert_zero]
  · have hguard : ∀ a : Account,
        (if relevantTo a e t then accountTxAmount a t else 0)
          = accountTxAmount a t := by
      intro a
      by_cases hrel : relevantTo a e t
      · rw [if_pos hrel]
      · rw [if_neg hrel]
        simp only [relevantTo, hafter, Bool.not_false, Bool.true_and,
          Bool.or_eq_true, beq_iff_eq] at hrel
        push_neg at hrel
        exact (accountTxAmount_zero_of_unrelated a t hrel.1 hrel.2).symm
    rw [sum_map_congr _
      (fun a => baseConvert s a.currency (accountTxAmount a t)) accounts
      (fun a _ => by rw [hguard a])]
    cases hfindA : findAccount accounts t.accountId with
    | none =>
      rw [cashTxContribution_zero_of_dangling accounts s e t hfindA]
      have hnoacc : ∀ a ∈ accounts, a.id ≠ t.accountId := by
        intro a ha
        have := List.find?_eq_none.mp hfindA a ha
        simpa [findAccount] using this
      apply sum_map_zero
      intro a ha
      have hid : t.accountId ≠ a.id := fun h => hnoacc a ha h.symm
      cases htype : t.type with
      | Transfer => exact absurd hfindA (hsrc htype)
      | Income =>
        rw [show accountTxAmount a t = 0 by simp [accountTxAmount, htype, hid]]
        exact baseConvert_zero s a.currency
      | Expense =>
        rw [show accountTxAmount a t = 0 by simp [accountTxAmount, htype, hid]]
        exact baseConvert_zero s a.currency
    | some A =>
      obtain ⟨hAmem, hAid⟩ := findAccount_spec hfindA
      cases htype : t.type with
      | Income =>
        have hc : cashTxContribution accounts s e t
            = baseConvert s A.currency t.amount := by
          simp [cashTxContribution, hafter, hfindA, htype, baseConvert]
        rw [hc,
          sum_map_single hnd hAmem _
            (fun a _ hne => by
              show baseConvert s a.currency (accountTxAmount a t) = 0
              have hid : t.accountId ≠ a.id := by
                rw [← hAid]; exact fun h => hne h.symm
              rw [show accountTxAmount a t = 0 by
                simp [accountTxAmount, htype, hid]]
              exact baseConvert_zero s a.currency)]
        show baseConvert s A.currency (accountTxAmount A t) = _
        congr 1
        simp [accountTxAmount, htype, hAid.symm]
      | Expense =>
        have hc : cashTxContribution accounts s e t
            = -baseConvert s A.currency t.amount := by
          simp [cashTxContribution, hafter, hfindA, htype, baseConvert]
        rw [hc,
          sum_map_single hnd hAmem _
            (fun a _ hne => by
              show baseConvert s a.currency (accountTxAmount a t) = 0
              have hid : t.accountId ≠ a.id := by
                rw [← hAid]; exact fun h => hne h.symm
              rw [show accountTxAmount a t = 0 by
                simp [accountTxAmount, htype, hid]]
              exact baseConvert_zero s a.currency)]
        show baseConvert s A.currency (accountTxAmount A t) = _
        rw [show accountTxAmount A t = -t.amount by
          simp [accountTxAmount, htype, hAid.symm]]
        exact baseConvert_neg s A.currency t.amount
      | Transfer =>
        cases htoId : t.toAccountId with
        | none =>
          have hc : cashTxContribution accounts s e t
              = -baseConvert s A.currency t.amount := by
            simp [cashTxContribution, hafter, hfindA, htype, htoId, baseConvert]
          rw [hc,
            sum_map_single hnd hAmem _
              (fun a _ hne => by
                show baseConvert s a.currency (accountTxAmount a t) = 0
                have hid : t.accountId ≠ a.id := by
                  rw [← hAid]; exact fun h => hne h.symm
                rw [accountTxAmount_zero_of_unrelated a t hid
                  (by simp [htoId])]
                exact baseConvert_zero s a.currency)]
          show baseConvert s A.currency (accountTxAmount A t) = _
          rw [show accountTxAmount A t = -t.amount by
            simp [accountTxAmount, htype, hAid.symm]]
          exact baseConvert_neg s A.currency t.amount
        | some toId =>
          have hne_toId : toId ≠ t.accountId := by
            have hns := hnoself htype
            rw [htoId] at hns
            exact fun h => hns (by rw [h])
          by_cases hempty : toId = ""
          · have hnoB : ∀ a ∈ accounts, a.id ≠ toId := fun a ha h =>
              hids a ha (h.trans hempty)
            have hc : cashTxContribution accounts s e t
                = -baseConvert s A.currency t.amount := by
              simp [cashTxContribution, hafter, hfindA, htype, htoId, hempty,
                baseConvert]
            rw [hc,
              sum_map_single hnd hAmem _
                (fun a ha hne => by
                  show baseConvert s a.currency (accountTxAmount a t) = 0
                  have hid : t.accountId ≠ a.id := by
                    rw [← hAid]; exact fun h => hne h.symm
                  have hid2 : t.toAccountId ≠ some a.id := by
                    rw [htoId]
                    intro h
                    exact hnoB a ha (by injection h with h2; exact h2.symm)
                  rw [accountTxAmount_zero_of_unrelated a t hid hid2]
                  exact baseConvert_zero s a.currency)]
            show baseConvert s A.currency (accountTxAmount A t) = _
            rw [show accountTxAmount A t = -t.amount by
              simp [accountTxAmount, htype, hAid.symm]]
            exact baseConvert_neg s A.currency t.amount
          · cases hfindB : findAccount accounts toId with
            | none =>
              have hnoB : ∀ a ∈ accounts, a.id ≠ toId := by
                intro a ha
                have := List.find?_eq_none.mp hfindB a ha
                simpa [findAccount] using this
              have hc : cashTxContribution accounts s e t
                  = -baseConvert s A.currency t.amount := by
                simp [cashTxContribution, hafter, hfindA, htype, htoId, hempty, hfindB,
                  baseConvert]
              rw [hc,
                sum_map_single hnd hAmem _
                  (fun a ha hne => by
                    show baseConvert s a.currency (accountTxAmount a t) = 0
                    have hid : t.accountId ≠ a.id := by
                      rw [← hAid]; exact fun h => hne h.symm
                    have hid2 : t.toAccountId ≠ some a.id := by
                      rw [htoId]
                      intro h
                      exact hnoB a ha (by injection h with h2; exact h2.symm)
                    rw [accountTxAmount_zero_of_unrelated a t hid hid2]
                    exact baseConvert_zero s a.currency)]
              show baseConvert s A.currency (accountTxAmount A t) = _
              rw [show accountTxAmount A t = -t.amount by
                simp [accountTxAmount, htype, hAid.symm]]
              exact baseConvert_neg s A.currency t.amount
            | some B =>
              obtain ⟨hBmem, hBid⟩ := findAccount_spec hfindB
              have hABid : A.id ≠ B.id := by
                rw [hAid, hBid]
                exact fun h => hne_toId h.symm
              have hsum := sum_map_pair hnd hAmem hBmem hABid
                (fun a => baseConvert s a.currency (accountTxAmount a t))
                (fun a ha hneA hneB => by
                  show baseConvert s a.currency (accountTxAmount a t) = 0
                  have hid : t.accountId ≠ a.id := by
                    rw [← hAid]; exact fun h => hneA h.symm
                  have hid2 : t.toAccountId ≠ some a.id := by
                    rw [htoId]
                    intro h
                    apply hneB
                    rw [hBid]
                    injection h with h2
                    exact h2.symm
                  rw [accountTxAmount_zero_of_unrelated a t hid hid2]
                  exact baseConvert_zero s a.currency)
              rw [hsum]
              have heffA : accountTxAmount A t = -t.amount := by
                simp [accountTxAmount, htype, hAid.symm]
              have hBnotsrc : t.accountId ≠ B.id := by
                rw [← hAid]; exact hABid
              have hBdst : t.toAccountId = some B.id := by rw [htoId, hBid]
              show baseConvert s A.currency (accountTxAmount A t)
                  + baseConvert s B.currency (accountTxAmount B t) = _
              cases htoAmt : t.toAmount with
              | some ta =>
                have heffB : accountTxAmount B t = ta := by
                  simp [accountTxAmount, htype, hBnotsrc, hBdst, htoAmt]
                have hc : cashTxContribution accounts s e t
                    = -baseConvert s A.currency t.amount
                      + baseConvert s B.currency ta := by
                  simp [cashTxContribution, hafter, hfindA, htype, htoId, hempty, hfindB,
                    htoAmt, baseConvert]
                rw [hc, heffA, heffB, baseConvert_neg]
              | none =>
                have heffB : accountTxAmount B t = t.amount := by
                  simp [accountTxAmount, htype, hBnotsrc, hBdst, htoAmt]
                have hc : cashTxContribution accounts s e t
                    = -baseConvert s A.currency t.amount
                      + baseConvert s A.currency t.amount := by
                  simp [cashTxContribution, hafter, hfindA, htype, htoId, hempty, hfindB,
                    htoAmt, baseConvert]
                have hrates := hleg A B toId htype htoAmt htoId hfindA hfindB
                rw [hc, heffA, heffB, baseConvert_neg]
                congr 1
                simp [baseConvert, hrates]

/-- C1 counterexample: for the cross-currency transfer `txCross` (10 from
USD account `a` to EUR account `b`, no explicit destination amount, rates
USD = 1, EUR = 2, base USD), the global fold of `getCashBalanceAtDate`
assumes conservation of value in the base currency and returns 0, while the
sum of independently replayed, converted per-account balances
(`perAccountCashSum`, the spec's defining expression) is -5. -/
theorem C1_counterexample :
    getCashBalanceAtDate [acctA, acctB] [txCross] d0 settingsUE = .finite 0
      ∧ perAccountCashSum [acctA, acctB] [txCross] d0 settingsUE = .finite (-5) := by
  constructor
  · simp +decide [getCashBalanceAtDate, cashTxContribution, findAccount, rateOr1,
      convertCurrency, lookupNum, isAfter, endOfMonth, daysInMonth, isLeapYear,
      acctA, acctB, txCross, d0, settingsUE, ratesUE, jadd, jdiv, jmul]
  · simp +decide [perAccountCashSum, getAccountBalanceAtDate, relevantTo,
      accountTxAmount, convertCurrency, lookupNum, jadd, jdiv, jmul, isAfter,
      endOfMonth, daysInMonth, isLeapYear, acctA, acctB, txCross, d0, settingsUE,
      ratesUE]
    norm_num

/-- C1 amended: `getCashBalanceAtDate` equals the sum of the converted
per-account balances provided: account ids are pairwise distinct and
nonempty (the empty string is falsy in the source's `if (t.toAccountId)`
guard, so a transfer into an existing account with id `""` skips the
destination leg in the cash fold only); every account currency and the base
currency have nonzero entries in the rate table; every Transfer's source
account resolves; no Transfer is same-account; and every cross-rate
Transfer carries an explicit `toAmount` (a Transfer without `toAmount`
between two resolved accounts must have equal rates). Each hypothesis
excludes a case where the equivalence genuinely fails in the source
(conservation-of-value shortcut, truthiness of the destination id,
same-account asymmetry, dangling source exclusion). -/
theorem C1_cash_balance_decomposition (accounts : List Account)
    (txs : List Transaction) (d : CalDate) (s : Settings)
    (hnd : (accounts.map Account.id).Nodup)
    (hids : ∀ a ∈ accounts, a.id ≠ "")
    (hacur : ∀ a ∈ accounts, s.exchangeRates a.currency ≠ none
      ∧ s.exchangeRates a.currency ≠ some 0)
    (hbase : s.exchangeRates s.baseCurrency ≠ none
      ∧ s.exchangeRates s.baseCurrency ≠ some 0)
    (hsrc : ∀ t ∈ txs, t.type = TxType.Transfer →
      findAccount accounts t.accountId ≠ none)
    (hnoself : ∀ t ∈ txs, t.type = TxType.Transfer →
      t.toAccountId ≠ some t.accountId)
    (hleg : ∀ t ∈ txs, ∀ A B toId, t.type = TxType.Transfer → t.toAmount = none →
      t.toAccountId = some toId → findAccount accounts t.accountId = some A →
      findAccount accounts toId = some B →
      rateOr1 s.exchangeRates A.currency = rateOr1 s.exchangeRates B.currency) :
    getCashBalanceAtDate accounts txs d s = perAccountCashSum accounts txs d s := by
  have hconv : ∀ a ∈ accounts,
      convertCurrency a.initialBalance a.currency s.baseCurrency s.exchangeRates
        = .finite (baseConvert s a.currency a.initialBalance) := fun a ha =>
    convertCurrency_eq_baseConvert s a.currency a.initialBalance
      (hacur a ha).1 (hacur a ha).2 hbase.1 hbase.2
  have hbal : ∀ a ∈ accounts,
      convertCurrency (getAccountBalanceAtDate a txs d) a.currency
          s.baseCurrency s.exchangeRates
        = .finite (baseConvert s a.currency (getAccountBalanceAtDate a txs d)) :=
    fun a ha =>
      convertCurrency_eq_baseConvert s a.currency _
        (hacur a ha).1 (hacur a ha).2 hbase.1 hbase.2
  have hinit : accounts.foldl
      (fun acc account =>
        jadd acc (convertCurrency account.initialBalance account.currency
          s.baseCurrency s.exchangeRates))
      (.finite 0)
      = .finite (0 + (accounts.map
          (fun a => baseConvert s a.currency a.initialBalance)).sum) :=
    foldl_jadd_finite _ _ accounts hconv 0
  have hper : accounts.foldl
      (fun acc a =>
        jadd acc (convertCurrency (getAccountBalanceAtDate a txs d) a.currency
          s.baseCurrency s.exchangeRates))
      (.finite 0)
      = .finite (0 + (accounts.map
          (fun a => baseConvert s a.currency (getAccountBalanceAtDate a txs d))).sum) :=
    foldl_jadd_finite _ _ accounts hbal 0
  have htx : txs.foldl
      (fun acc t => acc + cashTxContribution accounts s (endOfMonth d) t) 0
      = 0 + (txs.map (cashTxContribution accounts s (endOfMonth d))).sum :=
    foldl_add_eq _ 0 txs
  have hpt : ∀ a : Account,
      baseConvert s a.currency (getAccountBalanceAtDate a txs d)
        = baseConvert s a.currency a.initialBalance
          + (txs.map (fun t => baseConvert s a.currency
              (if relevantTo a (endOfMonth d) t then accountTxAmount a t
               else 0))).sum := by
    intro a
    rw [getAccountBalanceAtDate_eq_sum, baseConvert_add, baseConvert_sum]
    congr 1
    rw [sum_map_filter_eq_guard (relevantTo a (endOfMonth d))
      (fun t => baseConvert s a.currency (accountTxAmount a t)) txs]
    exact sum_map_congr _ _ txs (fun t _ => by
      by_cases hp : relevantTo a (endOfMonth d) t
      · rw [if_pos hp, if_pos hp]
      · rw [if_neg hp, if_neg hp, baseConvert_zero])
  have hinner : ∀ t ∈ txs,
      (accounts.map (fun a => baseConvert s a.currency
        (if relevantTo a (endOfMonth d) t then accountTxAmount a t else 0))).sum
      = cashTxContribution accounts s (endOfMonth d) t := fun t ht =>
    sum_baseConvert_effect accounts s (endOfMonth d) t hnd hids (hsrc t ht)
      (hnoself t ht) (fun A B toId => hleg t ht A B toId)
  have hbalsum :
      (accounts.map
        (fun a => baseConvert s a.currency (getAccountBalanceAtDate a txs d))).sum
      = (accounts.map (fun a => baseConvert s a.currency a.initialBalance)).sum
        + (txs.map (cashTxContribution accounts s (endOfMonth d))).sum := by
    rw [sum_map_congr _ _ accounts (fun a _ => hpt a), sum_map_add]
    congr 1
    rw [sum_map_swap accounts txs
      (fun a t => baseConvert s a.currency
        (if relevantTo a (endOfMonth d) t then accountTxAmount a t else 0))]
    exact sum_map_congr _ _ txs hinner
  simp only [getCashBalanceAtDate, perAccountCashSum]
  rw [hinit, hper, htx, jadd_finite]
  congr 1
  rw [hbalsum]
  ring

/-- Witness for the amended C1: the cross-currency transfer with explicit
destination amount `txCrossTo` satisfies the side conditions, and the global
fold and the per-account sum agree on it. -/
theorem C1_cash_balance_decomposition_witness :
    getCashBalanceAtDate [acctA, acctB] [txCrossTo] d0 settingsUE
      = perAccountCashSum [acctA, acctB] [txCrossTo] d0 settingsUE :=
  C1_cash_balance_decomposition [acctA, acctB] [txCrossTo] d0 settingsUE
    (by decide)
    (by decide)
    (by decide)
    (by decide)
    (by decide)
    (by decide)
    (by
      intro t ht A B toId htype htoAmt htoacc hfA hfB
      rw [List.mem_singleton] at ht
      subst ht
      exact absurd htoAmt (by decide))
